import Mathlib

/-!
Shallow embedding of the TailSSH frontend core (`src/public/app.js`) and the
Cloudflare worker device endpoint (`src/unnamed/part_000`, `handleDevices`).

The frontend keeps three pieces of shared mutable state that matter here:
the tab registry (`tabs`, an ordered array), the DOM order of tab buttons
inside `#tab-list` (modelled as the list `dom` of tab ids), and a handful of
connectivity flags (`globalIpn`, `buttonsWired`, `ipnEverRan`) plus the last
state string delivered by `notifyState`.  DOM element identity is modelled by
the tab id (each tab element carries `dataset.id`).

Side effects that matter to the claims (closing an SSH session, removing a
tab) are recorded as an explicit action list returned next to the new state,
in the order the corresponding statements execute in the source.
-/

namespace TailSSH

/-- Connectivity states delivered by the Tailscale IPN node to `notifyState`
(the keys of the `map` in `setStatus`, `src/public/app.js` lines 50-58). -/
inductive IpnState where
  | NoState
  | InUseOtherUser
  | NeedsLogin
  | NeedsMachineAuth
  | Stopped
  | Starting
  | Running
  deriving DecidableEq, Repr

/-- One tab object `{ id, tabEl, paneEl, session, label }` (app.js line 236).
`session : Bool` records whether `tab.session` is non-null; the DOM elements
are represented by the id itself. -/
structure Tab where
  id : Nat
  session : Bool
  label : String
  deriving DecidableEq, Repr

/-- Observable side effects of tab teardown, in execution order:
`sessionClose i` models `tab.session.close()` and `tabRemove i` models the
removal of tab `i`'s elements / registry entry. -/
inductive Act where
  | sessionClose (id : Nat)
  | tabRemove (id : Nat)
  deriving DecidableEq, Repr

/-- Global mutable state of `app.js`: `tabIdSeq`, the `tabs` array (logical
order), the order of tab buttons in `#tab-list` (`dom`), `activeTabId`,
`globalIpn` (non-null once set), the `buttonsWired` latch, the `ipnEverRan`
latch, and the last notified connectivity state.  `created` is a ghost
history of allocated ids in allocation order (not a program variable). -/
structure AppState where
  tabIdSeq : Nat
  tabs : List Tab
  dom : List Nat
  activeTabId : Option Nat
  globalIpn : Bool
  buttonsWired : Bool
  ipnEverRan : Bool
  connState : IpnState
  created : List Nat
  deriving DecidableEq, Repr

/-- Initial state of the page (app.js lines 39-45; before `main` runs no
state notification has arrived, modelled as `NoState`). -/
def initState : AppState :=
  { tabIdSeq := 0
    tabs := []
    dom := []
    activeTabId := none
    globalIpn := false
    buttonsWired := false
    ipnEverRan := false
    connState := IpnState.NoState
    created := [] }

/-- Model of `createTab` (app.js lines 194-243): allocate `++tabIdSeq`,
append the tab button to `#tab-list` and the tab object to `tabs`, then
`activateTab(id)`.  (`loadPicker` is asynchronous and does not touch the
registry.) -/
def createTab (s : AppState) : AppState :=
  let id := s.tabIdSeq + 1
  { s with
      tabIdSeq := id
      tabs := s.tabs ++ [{ id := id, session := false, label := "New tab" }]
      dom := s.dom ++ [id]
      activeTabId := some id
      created := s.created ++ [id] }

/-- Model of `getTab` (app.js lines 245-247). -/
def getTab (s : AppState) (id : Nat) : Option Tab :=
  s.tabs.find? (fun t => t.id == id)

/-- Model of `closeTab` (app.js lines 268-294), also returning the teardown
actions it performs in order: close the session if one is open, remove the
tab's elements and registry entry, then either auto-create a replacement tab
(only when `globalIpn` is set) or activate the nearest remaining tab. -/
def closeTab (id : Nat) (s : AppState) : AppState × List Act :=
  match getTab s id with
  | none => (s, [])
  | some tab =>
    let acts := (if tab.session then [Act.sessionClose id] else []) ++ [Act.tabRemove id]
    let idx := s.tabs.findIdx (fun t => t.id == id)
    let tabs1 := s.tabs.eraseIdx idx
    let s1 := { s with tabs := tabs1, dom := s.dom.erase id }
    if tabs1.isEmpty then
      (if s1.globalIpn then createTab s1 else s1, acts)
    else if s1.activeTabId = some id then
      let next := tabs1.getD (min idx (tabs1.length - 1))
        { id := 0, session := false, label := "" }
      ({ s1 with activeTabId := some next.id }, acts)
    else
      (s1, acts)

/-- Model of `clearAllTabs` (app.js lines 301-312): close every live session
and remove every tab, in array order, without the replacement-tab policy. -/
def clearAllTabs (s : AppState) : AppState × List Act :=
  ({ s with tabs := [], dom := [], activeTabId := none },
   s.tabs.flatMap (fun t =>
     (if t.session then [Act.sessionClose t.id] else []) ++ [Act.tabRemove t.id]))

/-- DOM `tabList.insertBefore(xEl, refEl)` on the id list: `x` is first
removed from the list, then inserted immediately before `ref`. -/
def insertBeforeEl (x ref : Nat) (l : List Nat) : List Nat :=
  go (l.erase x)
where
  go : List Nat → List Nat
    | [] => [x]
    | y :: ys => if y = ref then x :: y :: ys else y :: go ys

/-- Model of `onDrop` (app.js lines 335-356) with `dragSrcId = srcId` and the
drop target's `dataset.id = dstId`: no-op when the ids are equal or either is
absent; otherwise capture the destination element, splice the source out of
`tabs`, re-insert it at the (pre-removal) destination index, and move the
source's button immediately before the captured destination button. -/
def onDrop (srcId dstId : Nat) (s : AppState) : AppState :=
  if srcId = dstId then s
  else if (getTab s srcId).isNone ∨ (getTab s dstId).isNone then s
  else
    let srcIdx := s.tabs.findIdx (fun t => t.id == srcId)
    let dstIdx := s.tabs.findIdx (fun t => t.id == dstId)
    let srcTab := s.tabs.getD srcIdx { id := 0, session := false, label := "" }
    let tabs1 := (s.tabs.eraseIdx srcIdx).insertIdx dstIdx srcTab
    { s with tabs := tabs1, dom := insertBeforeEl srcId dstId s.dom }

/-- Model of the `notifyState` handler (app.js lines 707-745).  `Running`
sets the `ipnEverRan` latch, wires the buttons and publishes `globalIpn`
once, and creates a tab when the registry is empty; `NeedsLogin`,
`NeedsMachineAuth` and `Stopped` tear all tabs down via `clearAllTabs`;
every other state only updates the status badge. -/
def notifyState (st : IpnState) (s : AppState) : AppState :=
  let s0 := { s with connState := st }
  match st with
  | IpnState.Running =>
    let s1 := { s0 with ipnEverRan := true }
    let s2 := if !s1.buttonsWired
      then { s1 with buttonsWired := true, globalIpn := true }
      else s1
    if s2.tabs.isEmpty then createTab s2 else s2
  | IpnState.NeedsLogin => (clearAllTabs s0).1
  | IpnState.NeedsMachineAuth => (clearAllTabs s0).1
  | IpnState.Stopped => (clearAllTabs s0).1
  | _ => s0

/-- Events driving the workspace: a connectivity notification, a click on the
new-tab button (wired only once `Running` has been reached), a tab close, and
a drag-and-drop reorder. -/
inductive Ev where
  | notify (st : IpnState)
  | newTab
  | close (id : Nat)
  | reorder (src dst : Nat)
  deriving DecidableEq, Repr

/-- One event step.  `newTab` does nothing before the listener is wired. -/
def stepEv (s : AppState) : Ev → AppState
  | Ev.notify st => notifyState st s
  | Ev.newTab => if s.buttonsWired then createTab s else s
  | Ev.close id => (closeTab id s).1
  | Ev.reorder a b => onDrop a b s

/-- Run a sequence of events from the initial page state. -/
def run (evs : List Ev) : AppState := evs.foldl stepEv initState

/-- Ids of the tabs in logical (array) order. -/
def logicalIds (s : AppState) : List Nat := s.tabs.map (fun t => t.id)

/-- The workspace after reaching `Running` (which opens tab 1) and clicking
the new-tab button twice: tabs 1, 2, 3 in both orders. -/
def threeTabs : AppState := run [Ev.notify IpnState.Running, Ev.newTab, Ev.newTab]

/-!
Device pipeline: the worker's `handleDevices` trims the raw Tailscale API
records (`src/unnamed/part_000` lines 77-99) and the picker sorts and
renders them (`src/public/app.js` lines 441-470).
-/

/-- Model of JavaScript `String.prototype.trim`: strip leading and trailing
whitespace.  (Defined over the character list so that it evaluates inside
the kernel.) -/
def jsTrim (s : String) : String :=
  String.mk (((s.data.dropWhile Char.isWhitespace).reverse.dropWhile Char.isWhitespace).reverse)

/-- Model of JavaScript `String.prototype.toLowerCase` for the point-wise
case mapping the claims exercise. -/
def jsToLower (s : String) : String :=
  String.mk (s.data.map Char.toLower)

/-- Model of `name.split(".")[0]`: the prefix of the string before the first
dot (the whole string when it has no dot). -/
def firstLabel (s : String) : String :=
  String.mk (s.data.takeWhile (fun c => c ≠ '.'))

/-- Three-way lexicographic comparison of character lists, the order
JavaScript's `<`/`>` on strings induces (by code unit). -/
def lexCmp : List Char → List Char → Int
  | [], [] => 0
  | [], _ :: _ => -1
  | _ :: _, [] => 1
  | a :: as, b :: bs => if a < b then -1 else if b < a then 1 else lexCmp as bs

/-- Raw device record as read from the Tailscale REST API response.  The
`lastSeen` ISO-8601 string is represented by its parsed epoch value in
milliseconds (`new Date(iso).getTime()`); `none` models a missing/null
field.  Optional fields model `?? `-defaulted JS fields. -/
structure RawDevice where
  id : String
  name : String
  hostname : Option String
  addresses : Option (List String)
  os : Option String
  lastSeen : Option Int
  sshEnabled : Option Bool
  deriving DecidableEq, Repr

/-- Trimmed device object returned by `/api/devices` and consumed by the
picker (part_000 lines 88-98). -/
structure Device where
  id : String
  name : String
  displayName : String
  hostname : String
  addresses : List String
  os : String
  online : Bool
  lastSeen : Option Int
  sshEnabled : Bool
  deriving DecidableEq, Repr

/-- Model of the per-device body of the `flatMap` in `handleDevices`
(part_000 lines 78-99): skip devices with no name; infer `online` from
`lastSeen` (`lastSeenMs > 0 && (now - lastSeenMs) < 10 * 60 * 1000`); trim
to the fields the frontend needs.  `now` is `Date.now()` in epoch ms. -/
def trimDevice (now : Int) (d : RawDevice) : List Device :=
  if d.name = "" then []
  else
    let lastSeenMs : Int := match d.lastSeen with
      | some ms => ms
      | none => 0
    let online : Bool := lastSeenMs > 0 && now - lastSeenMs < 10 * 60 * 1000
    [{ id := d.id
       name := d.name
       displayName := firstLabel d.name
       hostname := d.hostname.getD ""
       addresses := d.addresses.getD []
       os := d.os.getD ""
       online := online
       lastSeen := d.lastSeen
       sshEnabled := d.sshEnabled.getD false }]

/-- Model of `handleDevices`' successful response body: the trimmed list. -/
def handleDevices (now : Int) (raw : List RawDevice) : List Device :=
  raw.flatMap (trimDevice now)

/-- Name key used by the picker comparator:
`a.displayName || a.name || ""` (app.js line 445). -/
def nameKey (d : Device) : String :=
  if d.displayName ≠ "" then d.displayName else if d.name ≠ "" then d.name else ""

/-- Approximation of default-locale `String.prototype.localeCompare`: the
primary comparison is case-insensitive; exact code-unit order only breaks
ties between strings equal up to case. -/
def localeCmp (a b : String) : Int :=
  if lexCmp (jsToLower a).data (jsToLower b).data ≠ 0 then
    lexCmp (jsToLower a).data (jsToLower b).data
  else lexCmp a.data b.data

/-- The picker's sort comparator (app.js lines 442-446): SSH-enabled first,
then online, then alphabetically by name key. -/
def devCompare (a b : Device) : Int :=
  if a.sshEnabled ≠ b.sshEnabled then (if a.sshEnabled then -1 else 1)
  else if a.online ≠ b.online then (if a.online then -1 else 1)
  else localeCmp (nameKey a) (nameKey b)

/-- The `devices.sort(comparator)` call (app.js line 442), modelled as a
stable sort by "comparator says not greater". -/
def sortDevices (l : List Device) : List Device :=
  l.mergeSort (fun a b => devCompare a b ≤ 0)

/-- Search haystack of a card (app.js lines 456-458):
`[displayName, hostname, os, ...addresses].join(" ").toLowerCase()`. -/
def haystack (d : Device) : String :=
  jsToLower (String.intercalate " " ([d.displayName, d.hostname, d.os] ++ d.addresses))

/-- Model of `renderCards(query)` (app.js lines 451-470): the devices whose
card is appended to the grid — all of them when the trimmed, lowercased
query is empty, else those whose haystack contains the query. -/
def renderCards (query : String) (devices : List Device) : List Device :=
  let q := jsToLower (jsTrim query)
  devices.filter (fun d => q = "" || (haystack d).containsSubstr q)

/-- The devices whose cards the picker shows for a raw directory response:
trim in the worker, sort in `loadPicker`, render with an empty query. -/
def pickerCards (now : Int) (raw : List RawDevice) : List Device :=
  renderCards "" (sortDevices (handleDevices now raw))

/-!
Modal arbiter: `promptUsername` (app.js lines 126-185).  A call first checks
the `modalBusy` gate; when busy it returns an already-resolved `null`
(cancelled) without queueing, otherwise it takes the gate and leaves a prompt
pending.  A pending prompt is settled by the confirm or cancel handler, both
of which run `cleanup`: release the gate, hide the modal, detach listeners,
then resolve.
-/

/-- Outcome a `promptUsername` promise resolves with: the entered name, or
`null` for cancellation. -/
inductive PromptOutcome where
  | value (s : String)
  | cancelled
  deriving DecidableEq, Repr

/-- Observable steps of settling a prompt, in execution order inside
`cleanup` (app.js lines 156-163): the gate release (`modalBusy = false`)
happens before `resolve(result)` is invoked. -/
inductive ModalAct where
  | gateReleased
  | resolved (r : PromptOutcome)
  deriving DecidableEq, Repr

/-- Model of entering `promptUsername` (app.js lines 133-138): given the
current `modalBusy` flag, return the new flag and `some outcome` when the
call resolves immediately (the busy fast-path returns
`Promise.resolve(null)`), or `none` when a prompt is now pending. -/
def promptStart (modalBusy : Bool) : Bool × Option PromptOutcome :=
  if modalBusy then (modalBusy, some PromptOutcome.cancelled)
  else (true, none)

/-- Model of the confirm handler `onConnect` (app.js lines 165-169) on a
pending prompt, with `v` the current input value: empty trimmed input
refocuses and leaves the prompt pending (no acts); otherwise `cleanup(val)`
runs, releasing the gate and then resolving with the trimmed name.  Returns
the new `modalBusy` flag and the emitted acts. -/
def promptConfirm (v : String) (modalBusy : Bool) : Bool × List ModalAct :=
  if jsTrim v = "" then (modalBusy, [])
  else (false, [ModalAct.gateReleased, ModalAct.resolved (PromptOutcome.value (jsTrim v))])

/-- Model of the cancel handler `onCancel` (app.js line 170) on a pending
prompt: `cleanup(null)` releases the gate and then resolves with `null`. -/
def promptCancel (_modalBusy : Bool) : Bool × List ModalAct :=
  (false, [ModalAct.gateReleased, ModalAct.resolved PromptOutcome.cancelled])

/-!
Session opening: `openSession` (app.js lines 575-624) is an async function
with one suspension point, the `await promptUsername(device)`.  Two
overlapping invocations on the same tab are modelled as two cooperative
threads, each in one of three phases; all shared state they read or write is
in `OsConfig`.  A thread entering the function runs synchronously up to the
await (guard, gate check); a thread resuming from the await runs the rest
synchronously (second guard, `runSSHSession`, `tab.session` assignment).
-/

/-- Phase of one `openSession` invocation: not yet entered / suspended on the
credential prompt / returned. -/
inductive OsPhase where
  | entry
  | prompting
  | finished
  deriving DecidableEq, Repr

/-- Shared state for two overlapping `openSession` invocations on one tab:
the two thread phases, the arbiter gate, whether `tab.session` is non-null,
and how many times `runSSHSession` has been invoked. -/
structure OsConfig where
  p1 : OsPhase
  p2 : OsPhase
  modalBusy : Bool
  session : Bool
  opens : Nat
  deriving DecidableEq, Repr

/-- Both invocations pending on a tab showing the picker: no session, gate
free, nothing opened yet. -/
def osInit : OsConfig :=
  { p1 := OsPhase.entry, p2 := OsPhase.entry, modalBusy := false,
    session := false, opens := 0 }

/-- A thread runs `openSession` up to the await (app.js lines 575-579): the
first guard returns when `tab.session` is set; `promptUsername` on a busy
gate yields an immediately-resolved `null`, so the resumption returns at
`if (!user) return`; otherwise the gate is taken and the thread suspends. -/
def osEntry (ph : OsPhase) (c : OsConfig) : Option (OsPhase × OsConfig) :=
  match ph with
  | OsPhase.entry =>
    if c.session then some (OsPhase.finished, c)
    else
      match promptStart c.modalBusy with
      | (busy1, some _) => some (OsPhase.finished, { c with modalBusy := busy1 })
      | (busy1, none) => some (OsPhase.prompting, { c with modalBusy := busy1 })
  | _ => none

/-- A suspended thread resumes after the user confirms a non-empty name
(app.js lines 579-624): `cleanup` has released the gate; the resumed code
re-checks `tab.session` and returns if it is set, else stores the username,
swaps the pane, calls `runSSHSession` and assigns `tab.session`. -/
def osResumeConfirm (ph : OsPhase) (c : OsConfig) : Option (OsPhase × OsConfig) :=
  match ph with
  | OsPhase.prompting =>
    let c1 := { c with modalBusy := false }
    if c1.session then some (OsPhase.finished, c1)
    else some (OsPhase.finished, { c1 with session := true, opens := c1.opens + 1 })
  | _ => none

/-- A suspended thread resumes after the user cancels: the gate is released,
the promise resolves `null`, and `openSession` returns at
`if (!user) return`. -/
def osResumeCancel (ph : OsPhase) (c : OsConfig) : Option (OsPhase × OsConfig) :=
  match ph with
  | OsPhase.prompting => some (OsPhase.finished, { c with modalBusy := false })
  | _ => none

/-- Apply a thread-step function to thread 1. -/
def stepT1 (f : OsPhase → OsConfig → Option (OsPhase × OsConfig)) (c : OsConfig) :
    List OsConfig :=
  match f c.p1 c with
  | some (ph, c1) => [{ c1 with p1 := ph }]
  | none => []

/-- Apply a thread-step function to thread 2. -/
def stepT2 (f : OsPhase → OsConfig → Option (OsPhase × OsConfig)) (c : OsConfig) :
    List OsConfig :=
  match f c.p2 c with
  | some (ph, c1) => [{ c1 with p2 := ph }]
  | none => []

/-- All interleaving successors when every prompt that reaches the user is
confirmed with a non-empty name. -/
def osNextConfirm (c : OsConfig) : List OsConfig :=
  stepT1 osEntry c ++ stepT1 osResumeConfirm c ++
  stepT2 osEntry c ++ stepT2 osResumeConfirm c

/-- All interleaving successors, cancellation included. -/
def osNextAll (c : OsConfig) : List OsConfig :=
  osNextConfirm c ++ stepT1 osResumeCancel c ++ stepT2 osResumeCancel c

/-- One scheduler step (confirm-only runs). -/
def OsStepConfirm (c c1 : OsConfig) : Prop := c1 ∈ osNextConfirm c

/-- One scheduler step (cancellation allowed). -/
def OsStepAll (c c1 : OsConfig) : Prop := c1 ∈ osNextAll c

/-- Configurations reachable in bounded breadth-first exploration. -/
def osExpand (f : OsConfig → List OsConfig) (l : List OsConfig) : List OsConfig :=
  (l ++ l.flatMap f).dedup

/-- Every configuration reachable from `osInit` under confirm-only runs
(the exploration saturates well within six rounds). -/
def osReachConfirm : List OsConfig := (osExpand osNextConfirm)^[6] [osInit]

/-- Every configuration reachable from `osInit`, cancellation included. -/
def osReachAll : List OsConfig := (osExpand osNextAll)^[6] [osInit]

/-!
Session end: `openSession`'s callback set and `onSessionEnd` (app.js lines
597-630).  `closed` is the per-session local flag set only by
`tab.session.close()`; the `onError`/`onDone` callbacks run `onSessionEnd`
whenever the flag is unset.  `onSessionEnd` nulls `tab.session`, clears the
pane and reloads the picker — `endCount` counts those picker transitions.
-/

/-- Per-session end-transition state: the `closed` flag, whether
`tab.session` is non-null, and how many times `onSessionEnd` has run. -/
structure SessCtl where
  closed : Bool
  session : Bool
  endCount : Nat
  deriving DecidableEq, Repr

/-- State right after `runSSHSession` returned and `tab.session` was
assigned (app.js lines 597-624). -/
def sessInit : SessCtl := { closed := false, session := true, endCount := 0 }

/-- One firing of the `onError` or `onDone` callback (app.js lines 606-613):
`if (!closed) onSessionEnd(tab, ipn)`, and `onSessionEnd` (lines 626-630)
sets `tab.session = null` and returns the tab to the picker. -/
def fireEndCb (s : SessCtl) : SessCtl :=
  if !s.closed then { s with session := false, endCount := s.endCount + 1 } else s

/-- An explicit close of the session (app.js lines 273-276 and 618-623):
`tab.session.close()` sets `closed = true` and the caller then nulls
`tab.session`. -/
def sessionCloseOp (s : SessCtl) : SessCtl :=
  { s with closed := true, session := false }

/-!
Theorems.
-/

/-- Connectivity-flag invariant maintained by every event step:
`buttonsWired` and `globalIpn` are always set together, and whenever the
last notified state is `Running` the `globalIpn` handle is published. -/
def ConnFlagInv (s : AppState) : Prop :=
  s.buttonsWired = s.globalIpn ∧
  (s.connState = IpnState.Running → s.globalIpn = true)

lemma connFlagInv_createTab (s : AppState) (h : ConnFlagInv s) :
    ConnFlagInv (createTab s) := by
  simpa [ConnFlagInv, createTab] using h

lemma connFlagInv_notifyState (s : AppState) (st : IpnState) (h : ConnFlagInv s) :
    ConnFlagInv (notifyState st s) := by
  obtain ⟨hw, hr⟩ := h
  cases st <;>
    simp only [notifyState] <;>
    (try split_ifs) <;>
    simp_all [ConnFlagInv, createTab, clearAllTabs]

lemma connFlagInv_stepEv (s : AppState) (e : Ev) (h : ConnFlagInv s) :
    ConnFlagInv (stepEv s e) := by
  obtain ⟨hw, hr⟩ := h
  cases e with
  | notify st => exact connFlagInv_notifyState s st ⟨hw, hr⟩
  | newTab =>
    simp only [stepEv]
    split_ifs
    · exact connFlagInv_createTab _ ⟨hw, hr⟩
    · exact ⟨hw, hr⟩
  | close id =>
    simp only [stepEv]
    unfold closeTab
    cases hfind : getTab s id with
    | none => simp only [hfind]; exact ⟨hw, hr⟩
    | some tab =>
      simp only [hfind]
      split_ifs <;> exact connFlagInv_createTab _ ⟨hw, hr⟩
  | reorder a b =>
    simp only [stepEv]
    unfold onDrop
    split_ifs <;> exact ⟨hw, hr⟩

lemma connFlagInv_foldl (evs : List Ev) :
    ∀ s : AppState, ConnFlagInv s → ConnFlagInv (List.foldl stepEv s evs) := by
  induction evs with
  | nil => intro s hs; simpa using hs
  | cons e rest ih => intro s hs; exact ih _ (connFlagInv_stepEv s e hs)

lemma connFlagInv_run (evs : List Ev) : ConnFlagInv (run evs) :=
  connFlagInv_foldl evs initState (by simp [ConnFlagInv, initState])

lemma closeTab_of_singleton (s : AppState) (t : Tab) (h : s.tabs = [t]) :
    (closeTab t.id s).1.tabs.length = if s.globalIpn then 1 else 0 := by
  unfold closeTab getTab
  simp only [h, List.find?_cons, beq_self_eq_true, List.findIdx_cons, cond_true,
    List.eraseIdx_zero, List.tail_cons, List.isEmpty_nil, if_true, createTab]
  split_ifs <;> simp

/-- C1: the claim that the registry's logical order always equals the
presentation order fails in the code at drag-and-drop reorder.  In the
reachable three-tab workspace, dropping tab 1 onto tab 3 leaves the `tabs`
array in order `[2, 3, 1]` but the `#tab-list` DOM in order `[2, 1, 3]`:
the array re-insert uses the pre-removal destination index while
`insertBefore` places the dragged button before the destination button. -/
theorem claim_C1 :
    logicalIds (onDrop 1 3 threeTabs) = [2, 3, 1] ∧
    (onDrop 1 3 threeTabs).dom = [2, 1, 3] ∧
    logicalIds (onDrop 1 3 threeTabs) ≠ (onDrop 1 3 threeTabs).dom := by
  decide

/-- C3 fails as stated: after the node has been `Running` once, a later
non-`Running` notification (here `Starting`, which the handler ignores)
leaves `globalIpn` set, so closing the last remaining tab still creates a
replacement.  Concretely, after `Running` then `Starting` the workspace has
one tab and is not `Running`, yet closing that tab yields one tab (the fresh
tab 2), not zero. -/
theorem claim_C3_counterexample :
    (run [Ev.notify IpnState.Running, Ev.notify IpnState.Starting]).connState ≠
      IpnState.Running ∧
    logicalIds (run [Ev.notify IpnState.Running, Ev.notify IpnState.Starting]) = [1] ∧
    logicalIds (closeTab 1 (run [Ev.notify IpnState.Running, Ev.notify IpnState.Starting])).1 =
      [2] := by
  decide

/-- C3, amended: closing the last remaining tab creates exactly one
replacement tab precisely when `globalIpn` is set (that is, when the node
has reached `Running` at least once), and zero tabs otherwise; since every
reachable state with Connectivity State `Running` has `globalIpn` set,
closing the last tab while `Running` does yield exactly one new tab. -/
theorem claim_C3 :
    (∀ (s : AppState) (t : Tab), s.tabs = [t] →
      (closeTab t.id s).1.tabs.length = if s.globalIpn then 1 else 0) ∧
    (∀ evs : List Ev, (run evs).connState = IpnState.Running →
      (run evs).globalIpn = true) ∧
    (∀ (evs : List Ev) (t : Tab), (run evs).tabs = [t] →
      (run evs).connState = IpnState.Running →
      (closeTab t.id (run evs)).1.tabs.length = 1) := by
  refine ⟨closeTab_of_singleton, ?_, ?_⟩
  · intro evs hc
    exact (connFlagInv_run evs).2 hc
  · intro evs t ht hc
    rw [closeTab_of_singleton _ _ ht, (connFlagInv_run evs).2 hc]
    rfl

/-- Witness for C3 at a concrete input: after the single notification
`Running` the workspace holds exactly tab 1, and closing it leaves exactly
one (fresh) tab. -/
theorem claim_C3_witness :
    (closeTab (Tab.mk 1 false "New tab").id (run [Ev.notify IpnState.Running])).1.tabs.length =
      1 :=
  claim_C3.2.2 [Ev.notify IpnState.Running] (Tab.mk 1 false "New tab") (by decide) (by decide)

/-- C6: the Modal Arbiter is single-flight.  A `promptUsername` call on a
free gate takes the gate and leaves a prompt pending; an overlapping call on
the busy gate resolves as cancelled immediately (nothing is queued and the
gate is untouched); a confirm with a non-empty input settles the pending
prompt by first releasing the gate and then resolving with the entered
(trimmed) login name, and a cancel likewise releases the gate before
resolving as cancelled. -/
theorem claim_C6 :
    promptStart false = (true, none) ∧
    promptStart true = (true, some PromptOutcome.cancelled) ∧
    (∀ v : String, jsTrim v ≠ "" →
      promptConfirm v true =
        (false, [ModalAct.gateReleased, ModalAct.resolved (PromptOutcome.value (jsTrim v))])) ∧
    promptCancel true = (false, [ModalAct.gateReleased, ModalAct.resolved PromptOutcome.cancelled]) := by
  refine ⟨rfl, rfl, ?_, rfl⟩
  intro v hv
  simp [promptConfirm, hv]

/-- Witness for C6 at the concrete input "root": confirming the pending
prompt releases the gate and then resolves with the entered name. -/
theorem claim_C6_witness :
    promptConfirm "root" true =
      (false, [ModalAct.gateReleased, ModalAct.resolved (PromptOutcome.value (jsTrim "root"))]) :=
  claim_C6.2.2.1 "root" (by decide)

/-- C7 fails as stated: the `closed` flag is set only by
`tab.session.close()`, never by `onSessionEnd`, so when the `error` and
`done` callbacks both fire (with no explicit close in between) the
end-of-session transition runs twice, not exactly once. -/
theorem claim_C7_counterexample :
    (fireEndCb (fireEndCb sessInit)).endCount = 2 ∧
    (fireEndCb (fireEndCb sessInit)).endCount ≠ 1 := by
  decide

/-- C7, amended: the `closed` flag makes the `error`/`done` callbacks no-ops
only after an explicit `close()` of the session (so callbacks arriving after
a user-initiated close trigger no transition); without an intervening close,
every callback firing runs the end transition — two firings run it twice —
though the transition is idempotent on the tab's session field (`tab.session`
is null from the first firing on). -/
theorem claim_C7 :
    (∀ s : SessCtl, s.closed = true → fireEndCb s = s) ∧
    (∀ s : SessCtl, fireEndCb (sessionCloseOp s) = sessionCloseOp s) ∧
    (∀ s : SessCtl, (fireEndCb (fireEndCb s)).session = (fireEndCb s).session) ∧
    (∀ s : SessCtl, s.closed = false → (fireEndCb s).endCount = s.endCount + 1) ∧
    (fireEndCb (fireEndCb sessInit)).endCount = 2 := by
  refine ⟨?_, ?_, ?_, ?_, by decide⟩
  · intro s hs; simp [fireEndCb, hs]
  · intro s; simp [fireEndCb, sessionCloseOp]
  · intro s; cases hs : s.closed <;> simp [fireEndCb, hs]
  · intro s hs; simp [fireEndCb, hs]

/-- Witness for C7 at a concrete input: after an explicit close, a callback
firing changes nothing. -/
theorem claim_C7_witness :
    fireEndCb (SessCtl.mk true false 0) = SessCtl.mk true false 0 :=
  claim_C7.1 (SessCtl.mk true false 0) rfl

/-- Raw device whose `lastSeen` parses to epoch 0: the worker treats it as
offline even though the field is non-null and within ten minutes of the
handler's clock. -/
def rdEpoch : RawDevice :=
  { id := "d1", name := "dev.ts.net", hostname := some "dev",
    addresses := some ["100.64.0.1"], os := some "linux",
    lastSeen := some 0, sshEnabled := some true }

/-- C10 fails as stated: with the handler's clock at epoch 300000 ms (five
minutes), a device whose non-null `lastSeen` parses to epoch 0 is within ten
minutes of the current time, yet `handleDevices` reports it offline, because
the code additionally requires `lastSeenMs > 0`. -/
theorem claim_C10_counterexample :
    (trimDevice 300000 rdEpoch).map (fun d => d.online) = [false] ∧
    rdEpoch.lastSeen = some 0 ∧
    ((300000 : Int) - 0).natAbs < 10 * 60 * 1000 := by
  decide

/-- C10, amended: in every device record returned by `/api/devices`, the
`online` flag is true iff `lastSeen` is non-null, parses to a strictly
positive epoch-millisecond value, and the signed difference between the
handler's current time and that value is strictly below ten minutes (so a
`lastSeen` in the future also counts as online). -/
theorem claim_C10 :
    ∀ (now : Int) (d : RawDevice) (dev : Device), dev ∈ trimDevice now d →
      (dev.online = true ↔
        ∃ ms : Int, d.lastSeen = some ms ∧ 0 < ms ∧ now - ms < 10 * 60 * 1000) := by
  intro now d dev hdev
  unfold trimDevice at hdev
  split_ifs at hdev with hname
  · simp at hdev
  · simp only [List.mem_singleton] at hdev
    subst hdev
    cases hls : d.lastSeen with
    | none => simp [hls]
    | some ms =>
      simp only [hls, gt_iff_lt, Bool.and_eq_true, decide_eq_true_eq, Option.some.injEq]
      constructor
      · rintro ⟨h1, h2⟩
        exact ⟨ms, rfl, h1, h2⟩
      · rintro ⟨ms2, hms2, h1, h2⟩
        cases hms2
        exact ⟨h1, h2⟩

/-- Witness for C10 at a concrete input: a device last seen 500 ms after the
epoch, queried at epoch 1000 ms, is reported online. -/
def rdRecent : RawDevice :=
  { id := "d2", name := "b.ts.net", hostname := none, addresses := none,
    os := none, lastSeen := some 500, sshEnabled := some false }

/-- The trimmed record `handleDevices` produces for `rdRecent` at epoch
1000 ms. -/
def devRecent : Device :=
  { id := "d2", name := "b.ts.net", displayName := "b", hostname := "",
    addresses := [], os := "", online := true, lastSeen := some 500,
    sshEnabled := false }

theorem claim_C10_witness : devRecent.online = true :=
  (claim_C10 1000 rdRecent devRecent (by decide)).mpr ⟨500, rfl, by decide, by decide⟩

lemma find?_to_idx {α : Type} (p : α → Bool) (l : List α) (t d : α) (h : l.find? p = some t) :
    l.findIdx p < l.length ∧ l.getD (l.findIdx p) d = t := by
  induction l with
  | nil => simp at h
  | cons a as ih =>
    by_cases hp : p a
    · rw [List.find?_cons_of_pos _ hp] at h
      cases h
      simp [List.findIdx_cons, hp]
    · have hp2 : p a = false := by simpa using hp
      rw [List.find?_cons_of_neg _ hp] at h
      obtain ⟨h1, h2⟩ := ih h
      constructor
      · simp only [List.findIdx_cons, hp2, cond_false, List.length_cons]
        omega
      · simp only [List.findIdx_cons, hp2, cond_false, List.getD_cons_succ]
        exact h2

lemma perm_getD_cons_eraseIdx {α : Type} (l : List α) (i : Nat) (d : α) (h : i < l.length) :
    l.Perm (l.getD i d :: l.eraseIdx i) := by
  rw [List.getD_eq_getElem l d h, List.eraseIdx_eq_take_drop_succ]
  have h2 : l = l.take i ++ l[i] :: l.drop (i + 1) := by
    conv_lhs => rw [← List.take_append_drop i l]
    rw [List.drop_eq_getElem_cons h]
  conv_lhs => rw [h2]
  exact List.perm_middle.trans (List.Perm.refl _)

lemma closeTab_acts (s : AppState) (id : Nat) (t : Tab) (hfind : getTab s id = some t)
    (hs : t.session = true) :
    (closeTab id s).2 = [Act.sessionClose id, Act.tabRemove id] := by
  unfold closeTab
  simp only [hfind, hs, if_true]
  split_ifs <;> rfl

lemma getElem?_chunk_shift {α : Type} (c l : List α) (i : Nat) :
    (c ++ l)[c.length + i]? = l[i]? := by
  rw [List.getElem?_append_right (by omega)]
  congr 1
  omega

lemma flatMap_close_before_remove (l : List Tab) (t : Tab) (ht : t ∈ l)
    (hs : t.session = true) :
    ∃ i j : Nat, i < j ∧
      (l.flatMap (fun u =>
        (if u.session then [Act.sessionClose u.id] else []) ++ [Act.tabRemove u.id]))[i]? =
          some (Act.sessionClose t.id) ∧
      (l.flatMap (fun u =>
        (if u.session then [Act.sessionClose u.id] else []) ++ [Act.tabRemove u.id]))[j]? =
          some (Act.tabRemove t.id) := by
  induction l with
  | nil => cases ht
  | cons a as ih =>
    rcases List.mem_cons.mp ht with rfl | hmem
    · exact ⟨0, 1, by omega, by simp [hs], by simp [hs]⟩
    · obtain ⟨i, j, hij, hi, hj⟩ := ih hmem
      refine ⟨((if a.session then [Act.sessionClose a.id] else []) ++ [Act.tabRemove a.id]).length + i,
              ((if a.session then [Act.sessionClose a.id] else []) ++ [Act.tabRemove a.id]).length + j,
              by omega, ?_, ?_⟩
      · rw [List.flatMap_cons, getElem?_chunk_shift]; exact hi
      · rw [List.flatMap_cons, getElem?_chunk_shift]; exact hj

/-- C4: whenever a tab holds a session, both teardown paths invoke the
session's `close()` before removing the tab: `closeTab` emits exactly the
action sequence close-then-remove for that tab, and in the bulk
`clearAllTabs` teardown every sessioned tab's close action occurs at a
strictly earlier position than its removal action. -/
theorem claim_C4 :
    (∀ (s : AppState) (id : Nat) (t : Tab), getTab s id = some t → t.session = true →
      (closeTab id s).2 = [Act.sessionClose id, Act.tabRemove id]) ∧
    (∀ (s : AppState) (t : Tab), t ∈ s.tabs → t.session = true →
      ∃ i j : Nat, i < j ∧
        (clearAllTabs s).2[i]? = some (Act.sessionClose t.id) ∧
        (clearAllTabs s).2[j]? = some (Act.tabRemove t.id)) := by
  refine ⟨closeTab_acts, ?_⟩
  intro s t ht hs
  exact flatMap_close_before_remove s.tabs t ht hs

/-- Witness for C4 at a concrete input: closing tab 5, which holds a
session, closes the session first and then removes the tab. -/
theorem claim_C4_witness :
    (closeTab 5 { initState with tabs := [Tab.mk 5 true "u@host"] }).2 =
      [Act.sessionClose 5, Act.tabRemove 5] :=
  claim_C4.1 { initState with tabs := [Tab.mk 5 true "u@host"] } 5 (Tab.mk 5 true "u@host")
    (by decide) rfl

lemma onDrop_spec (s : AppState) (src dst : Nat) (ts : Tab) (hne : src ≠ dst)
    (hsrc : getTab s src = some ts) (hdst : (getTab s dst).isSome) :
    (onDrop src dst s).tabs.length = s.tabs.length ∧
    (onDrop src dst s).tabs.Perm s.tabs ∧
    ((onDrop src dst s).tabs)[s.tabs.findIdx (fun t => t.id == dst)]? = some ts := by
  obtain ⟨td, htd⟩ := Option.isSome_iff_exists.mp hdst
  have hsrc2 : s.tabs.find? (fun t => t.id == src) = some ts := hsrc
  have htd2 : s.tabs.find? (fun t => t.id == dst) = some td := htd
  have hsi := find?_to_idx (fun t => t.id == src) s.tabs ts
    { id := 0, session := false, label := "" } hsrc2
  have hdi := find?_to_idx (fun t => t.id == dst) s.tabs td
    { id := 0, session := false, label := "" } htd2
  set srcIdx := s.tabs.findIdx (fun t => t.id == src) with hsrcIdx
  set dstIdx := s.tabs.findIdx (fun t => t.id == dst) with hdstIdx
  have hlen : (s.tabs.eraseIdx srcIdx).length = s.tabs.length - 1 := by
    rw [List.length_eraseIdx]
    simp [hsi.1]
  have hdle : dstIdx ≤ (s.tabs.eraseIdx srcIdx).length := by
    rw [hlen]; omega
  have honDrop : (onDrop src dst s).tabs =
      (s.tabs.eraseIdx srcIdx).insertIdx dstIdx
        (s.tabs.getD srcIdx { id := 0, session := false, label := "" }) := by
    unfold onDrop
    rw [if_neg hne, if_neg]
    simp [hsrc, htd, Option.isNone_iff_eq_none]
  rw [honDrop, hsi.2]
  refine ⟨?_, ?_, ?_⟩
  · rw [List.length_insertIdx _ _ hdle, hlen]
    omega
  · exact (List.perm_insertIdx ts _ hdle).trans
      ((hsi.2 ▸ perm_getD_cons_eraseIdx s.tabs srcIdx _ hsi.1).symm)
  · rw [List.getElem?_eq_getElem (by rw [List.length_insertIdx _ _ hdle]; omega)]
    rw [List.getElem_insertIdx_self _ _ _ hdle]

lemma onDrop_noop_eq (s : AppState) (i : Nat) : onDrop i i s = s := by
  unfold onDrop
  rw [if_pos rfl]

lemma onDrop_noop_src (s : AppState) (src dst : Nat) (h : getTab s src = none) :
    onDrop src dst s = s := by
  unfold onDrop
  split_ifs with h1 h2
  · rfl
  · rfl
  · exact absurd (Or.inl (Option.isNone_iff_eq_none.mpr h)) h2

lemma onDrop_noop_dst (s : AppState) (src dst : Nat) (h : getTab s dst = none) :
    onDrop src dst s = s := by
  unfold onDrop
  split_ifs with h1 h2
  · rfl
  · rfl
  · exact absurd (Or.inr (Option.isNone_iff_eq_none.mpr h)) h2

/-- C2: on the reachable workspace `[A, B, C]` (tabs 1, 2, 3), dropping A on
C yields the logical sequence `[B, C, A]`; in general a successful reorder
keeps the registry a permutation of itself with unchanged length and places
the source tab at the destination tab's former logical index, and the
operation is a no-op when source equals destination or either id is
absent. -/
theorem claim_C2 :
    logicalIds (onDrop 1 3 threeTabs) = [2, 3, 1] ∧
    (∀ (s : AppState) (src dst : Nat) (ts : Tab), src ≠ dst →
      getTab s src = some ts → (getTab s dst).isSome →
        (onDrop src dst s).tabs.length = s.tabs.length ∧
        (onDrop src dst s).tabs.Perm s.tabs ∧
        ((onDrop src dst s).tabs)[s.tabs.findIdx (fun t => t.id == dst)]? = some ts) ∧
    (∀ (s : AppState) (i : Nat), onDrop i i s = s) ∧
    (∀ (s : AppState) (src dst : Nat), getTab s src = none → onDrop src dst s = s) ∧
    (∀ (s : AppState) (src dst : Nat), getTab s dst = none → onDrop src dst s = s) :=
  ⟨by decide, onDrop_spec, onDrop_noop_eq, onDrop_noop_src, onDrop_noop_dst⟩

/-- Witness for C2 at a concrete input: in the three-tab workspace, after
dropping tab 1 on tab 3 the source tab occupies index 2, the destination's
former logical position. -/
theorem claim_C2_witness :
    ((onDrop 1 3 threeTabs).tabs)[threeTabs.tabs.findIdx (fun t => t.id == 3)]? =
      some (Tab.mk 1 false "New tab") :=
  (claim_C2.2.1 threeTabs 1 3 (Tab.mk 1 false "New tab") (by decide) (by decide)
    (by decide)).2.2

lemma osReachAll_init : osInit ∈ osReachAll := by decide

lemma osReachAll_closed : ∀ c ∈ osReachAll, ∀ c2 ∈ osNextAll c, c2 ∈ osReachAll := by decide

lemma osReachConfirm_init : osInit ∈ osReachConfirm := by decide

lemma osReachConfirm_closed :
    ∀ c ∈ osReachConfirm, ∀ c2 ∈ osNextConfirm c, c2 ∈ osReachConfirm := by decide

lemma reachAll_mem (c : OsConfig) (h : Relation.ReflTransGen OsStepAll osInit c) :
    c ∈ osReachAll := by
  induction h with
  | refl => exact osReachAll_init
  | tail _ hstep ih => exact osReachAll_closed _ ih _ hstep

lemma reachConfirm_mem (c : OsConfig) (h : Relation.ReflTransGen OsStepConfirm osInit c) :
    c ∈ osReachConfirm := by
  induction h with
  | refl => exact osReachConfirm_init
  | tail _ hstep ih => exact osReachConfirm_closed _ ih _ hstep

/-- C5: at most one `runSSHSession` ever happens for two overlapping
`openSession` invocations on one tab, under every interleaving (cancellation
included); when each prompt that reaches the user is confirmed, both
invocations finishing means exactly one session was opened; and the guard is
re-checked when an invocation resumes from the prompt: a resuming thread
that finds `tab.session` already set opens nothing. -/
theorem claim_C5 :
    (∀ c : OsConfig, Relation.ReflTransGen OsStepAll osInit c → c.opens ≤ 1) ∧
    (∀ c : OsConfig, Relation.ReflTransGen OsStepConfirm osInit c →
      c.p1 = OsPhase.finished → c.p2 = OsPhase.finished → c.opens = 1) ∧
    (∀ c : OsConfig, c.session = true →
      osResumeConfirm OsPhase.prompting c =
        some (OsPhase.finished, { c with modalBusy := false })) := by
  have hall : ∀ c ∈ osReachAll, c.opens ≤ 1 := by decide
  have hterm : ∀ c ∈ osReachConfirm,
      c.p1 = OsPhase.finished → c.p2 = OsPhase.finished → c.opens = 1 := by decide
  refine ⟨?_, ?_, ?_⟩
  · intro c h
    exact hall c (reachAll_mem c h)
  · intro c h h1 h2
    exact hterm c (reachConfirm_mem c h) h1 h2
  · intro c hs
    simp [osResumeConfirm, hs]

/-- Witness for C5: the interleaving "thread 1 enters, thread 1 confirms,
thread 2 enters" finishes both invocations with exactly one session open. -/
theorem claim_C5_witness :
    (OsConfig.mk OsPhase.finished OsPhase.finished false true 1).opens = 1 := by
  have s1 : OsStepConfirm osInit
      (OsConfig.mk OsPhase.prompting OsPhase.entry true false 0) :=
    show _ ∈ osNextConfirm _ by decide
  have s2 : OsStepConfirm (OsConfig.mk OsPhase.prompting OsPhase.entry true false 0)
      (OsConfig.mk OsPhase.finished OsPhase.entry false true 1) :=
    show _ ∈ osNextConfirm _ by decide
  have s3 : OsStepConfirm (OsConfig.mk OsPhase.finished OsPhase.entry false true 1)
      (OsConfig.mk OsPhase.finished OsPhase.finished false true 1) :=
    show _ ∈ osNextConfirm _ by decide
  exact claim_C5.2.1 _
    (Relation.ReflTransGen.head s1 (Relation.ReflTransGen.head s2
      (Relation.ReflTransGen.head s3 Relation.ReflTransGen.refl))) rfl rfl

/-- Id-allocation invariant maintained by every event step: the ghost list
of allocated ids is strictly increasing (so an id is never handed out
twice), every allocated id is bounded by the current `tabIdSeq`, and the
live tabs carry allocated, pairwise-distinct ids. -/
def IdInv (s : AppState) : Prop :=
  s.created.Chain' (· < ·) ∧
  (∀ x ∈ s.created, x ≤ s.tabIdSeq) ∧
  logicalIds s ⊆ s.created ∧
  (logicalIds s).Nodup

lemma idInv_createTab (s : AppState) (h : IdInv s) : IdInv (createTab s) := by
  obtain ⟨hc, hb, hsub, hnd⟩ := h
  have hidsle : ∀ x ∈ logicalIds s, x ≤ s.tabIdSeq := fun x hx => hb x (hsub hx)
  have hlog : logicalIds (createTab s) = logicalIds s ++ [s.tabIdSeq + 1] := by
    simp [logicalIds, createTab]
  refine ⟨?_, ?_, ?_, ?_⟩
  · show (s.created ++ [s.tabIdSeq + 1]).Chain' (· < ·)
    rw [List.chain'_append]
    refine ⟨hc, by simp, ?_⟩
    intro x hx y hy
    have hx2 : x ∈ s.created := List.mem_of_mem_getLast? hx
    have hy2 : s.tabIdSeq + 1 = y := by simpa using hy
    have := hb x hx2
    omega
  · intro x hx
    rcases List.mem_append.mp hx with hx1 | hx1
    · have := hb x hx1
      simp only [createTab]
      omega
    · simp only [List.mem_singleton] at hx1
      simp [createTab, hx1]
  · rw [hlog]
    show logicalIds s ++ [s.tabIdSeq + 1] ⊆ s.created ++ [s.tabIdSeq + 1]
    exact List.append_subset.mpr
      ⟨hsub.trans (List.subset_append_left _ _), List.subset_append_right _ _⟩
  · rw [hlog, List.nodup_append]
    refine ⟨hnd, by simp, ?_⟩
    intro x hx hx2
    have hx3 : x = s.tabIdSeq + 1 := by simpa using hx2
    have := hidsle x hx
    omega

lemma idInv_clearAllTabs (s : AppState) (h : IdInv s) : IdInv (clearAllTabs s).1 := by
  obtain ⟨hc, hb, _, _⟩ := h
  exact ⟨hc, hb, by simp [logicalIds, clearAllTabs], by simp [logicalIds, clearAllTabs]⟩

lemma idInv_of_tabs_sublist (s : AppState) (tabs2 : List Tab) (h : IdInv s)
    (hsl : tabs2.Sublist s.tabs) :
    (tabs2.map (fun t => t.id)) ⊆ s.created ∧ (tabs2.map (fun t => t.id)).Nodup := by
  obtain ⟨_, _, hsub, hnd⟩ := h
  have hmap : (tabs2.map (fun t => t.id)).Sublist (logicalIds s) := hsl.map _
  exact ⟨hmap.subset.trans hsub, hnd.sublist hmap⟩

lemma idInv_closeTab (s : AppState) (id : Nat) (h : IdInv s) : IdInv (closeTab id s).1 := by
  cases hfind : getTab s id with
  | none =>
    have heq : closeTab id s = (s, []) := by unfold closeTab; rw [hfind]
    rw [heq]
    exact h
  | some tab =>
    have hbase := idInv_of_tabs_sublist s
      (s.tabs.eraseIdx (s.tabs.findIdx (fun t => t.id == id)))
      h (List.eraseIdx_sublist _ _)
    have h1 : IdInv { s with
        tabs := s.tabs.eraseIdx (s.tabs.findIdx (fun t => t.id == id)),
        dom := s.dom.erase id } :=
      ⟨h.1, h.2.1, hbase.1, hbase.2⟩
    unfold closeTab
    simp only [hfind]
    split_ifs <;>
      first
      | exact idInv_createTab _ h1
      | exact h1

lemma idInv_onDrop (s : AppState) (a b : Nat) (h : IdInv s) : IdInv (onDrop a b s) := by
  by_cases hab : a = b
  · rw [hab, onDrop_noop_eq]; exact h
  · cases hga : getTab s a with
    | none => rw [onDrop_noop_src s a b hga]; exact h
    | some ts =>
      cases hgb : getTab s b with
      | none => rw [onDrop_noop_dst s a b hgb]; exact h
      | some td =>
        have hspec := onDrop_spec s a b ts hab hga (by simp [hgb])
        have hperm : (onDrop a b s).tabs.Perm s.tabs := hspec.2.1
        have hpermIds : ((onDrop a b s).tabs.map (fun t => t.id)).Perm (logicalIds s) :=
          hperm.map _
        have hcr : (onDrop a b s).created = s.created := by
          unfold onDrop
          split_ifs <;> rfl
        have hseq : (onDrop a b s).tabIdSeq = s.tabIdSeq := by
          unfold onDrop
          split_ifs <;> rfl
        obtain ⟨hc, hb2, hsub, hnd⟩ := h
        refine ⟨hcr ▸ hc, ?_, ?_, ?_⟩
        · intro x hx
          rw [hcr] at hx


          rw [hseq]
          exact hb2 x hx
        · show (onDrop a b s).tabs.map (fun t => t.id) ⊆ (onDrop a b s).created
          rw [hcr]
          exact fun x hx => hsub (hpermIds.subset hx)
        · exact hpermIds.symm.nodup hnd

lemma idInv_notifyState (s : AppState) (st : IpnState) (h : IdInv s) :
    IdInv (notifyState st s) := by
  cases st <;>
    simp only [notifyState] <;>
    (try split_ifs) <;>
    first
    | exact idInv_createTab _ h
    | exact idInv_clearAllTabs _ h
    | exact h

lemma idInv_stepEv (s : AppState) (e : Ev) (h : IdInv s) : IdInv (stepEv s e) := by
  cases e with
  | notify st => exact idInv_notifyState s st h
  | newTab =>
    simp only [stepEv]
    split_ifs
    · exact idInv_createTab _ h
    · exact h
  | close id => exact idInv_closeTab s id h
  | reorder a b => exact idInv_onDrop s a b h

lemma idInv_foldl (evs : List Ev) :
    ∀ s : AppState, IdInv s → IdInv (List.foldl stepEv s evs) := by
  induction evs with
  | nil => intro s hs; simpa using hs
  | cons e rest ih => intro s hs; exact ih _ (idInv_stepEv s e hs)

lemma idInv_run (evs : List Ev) : IdInv (run evs) :=
  idInv_foldl evs initState ⟨by simp [initState], by simp [initState], by
    simp [initState, logicalIds], by simp [initState, logicalIds]⟩

/-- C9: for every sequence of workspace events, the ghost allocation history
is strictly increasing — so ids are handed out in strictly increasing order
and never reused within the process lifetime — and the live tabs' ids are
all allocated and pairwise distinct. -/
theorem claim_C9 :
    ∀ evs : List Ev,
      (run evs).created.Chain' (· < ·) ∧
      logicalIds (run evs) ⊆ (run evs).created ∧
      (logicalIds (run evs)).Nodup := by
  intro evs
  obtain ⟨hc, _, hsub, hnd⟩ := idInv_run evs
  exact ⟨hc, hsub, hnd⟩

/-- Witness for C9 at a concrete event sequence: create three tabs, close
the middle one, create another; the allocation history 1,2,3,4 is strictly
increasing and the live ids 1,3,4 are distinct. -/
theorem claim_C9_witness :
    (run [Ev.notify IpnState.Running, Ev.newTab, Ev.newTab, Ev.close 2,
      Ev.newTab]).created.Chain' (· < ·) :=
  (claim_C9 [Ev.notify IpnState.Running, Ev.newTab, Ev.newTab, Ev.close 2, Ev.newTab]).1

lemma lexCmp_swap : ∀ a b : List Char, lexCmp a b = -lexCmp b a
  | [], [] => by simp [lexCmp]
  | [], _ :: _ => by simp [lexCmp]
  | _ :: _, [] => by simp [lexCmp]
  | a :: as, b :: bs => by
    by_cases h1 : a < b
    · simp [lexCmp, h1, asymm h1]
    · by_cases h2 : b < a
      · simp [lexCmp, h1, h2]
      · simp [lexCmp, h1, h2, lexCmp_swap as bs]

lemma lexCmp_eq_zero : ∀ a b : List Char, lexCmp a b = 0 ↔ a = b
  | [], [] => by simp [lexCmp]
  | [], _ :: _ => by simp [lexCmp]
  | _ :: _, [] => by simp [lexCmp]
  | a :: as, b :: bs => by
    by_cases h1 : a < b
    · simp [lexCmp, h1, ne_of_lt h1]
    · by_cases h2 : b < a
      · simp [lexCmp, h1, h2, ne_of_gt h2]
      · have hab : a = b := le_antisymm (not_lt.mp h2) (not_lt.mp h1)
        simp [lexCmp, h1, h2, hab, lexCmp_eq_zero as bs]

lemma lexCmp_le_trans : ∀ a b c : List Char,
    lexCmp a b ≤ 0 → lexCmp b c ≤ 0 → lexCmp a c ≤ 0
  | [], _, [] => by simp [lexCmp]
  | [], _, _ :: _ => by simp [lexCmp]
  | _ :: _, [], _ => by intro h1 _; simp [lexCmp] at h1
  | _ :: _, _ :: _, [] => by intro _ h2; simp [lexCmp] at h2
  | a :: as, b :: bs, c :: cs => by
    intro h1 h2
    by_cases hab : a < b
    · have hcb : ¬c < b := by
        intro hc
        rw [show lexCmp (b :: bs) (c :: cs) = 1 by simp [lexCmp, hc, asymm hc]] at h2
        omega
      have hac : a < c := lt_of_lt_of_le hab (not_lt.mp hcb)
      simp [lexCmp, hac]
    · have hba : ¬b < a := by
        intro hb
        rw [show lexCmp (a :: as) (b :: bs) = 1 by simp [lexCmp, hb, asymm hb]] at h1
        omega
      have hab2 : a = b := le_antisymm (not_lt.mp hba) (not_lt.mp hab)
      subst hab2
      by_cases hbc : a < c
      · simp [lexCmp, hbc]
      · have hcb : ¬c < a := by
          intro hc
          rw [show lexCmp (a :: bs) (c :: cs) = 1 by simp [lexCmp, hc, asymm hc]] at h2
          omega
        have hac : a = c := le_antisymm (not_lt.mp hcb) (not_lt.mp hbc)
        subst hac
        have h1t : lexCmp as bs ≤ 0 := by simpa [lexCmp, lt_irrefl] using h1
        have h2t : lexCmp bs cs ≤ 0 := by simpa [lexCmp, lt_irrefl] using h2
        simpa [lexCmp, lt_irrefl] using lexCmp_le_trans as bs cs h1t h2t

lemma localeCmp_swap (a b : String) : localeCmp a b = -localeCmp b a := by
  unfold localeCmp
  rw [lexCmp_swap (jsToLower a).data, lexCmp_swap a.data]
  split_ifs <;> omega

lemma localeCmp_le_trans (a b c : String) (h1 : localeCmp a b ≤ 0) (h2 : localeCmp b c ≤ 0) :
    localeCmp a c ≤ 0 := by
  unfold localeCmp at h1 h2 ⊢
  by_cases hab : lexCmp (jsToLower a).data (jsToLower b).data ≠ 0
  · rw [if_pos hab] at h1
    by_cases hbc : lexCmp (jsToLower b).data (jsToLower c).data ≠ 0
    · rw [if_pos hbc] at h2
      have htr := lexCmp_le_trans _ _ _ h1 h2
      by_cases hac : lexCmp (jsToLower a).data (jsToLower c).data ≠ 0
      · rw [if_pos hac]
        exact htr
      · exfalso
        have hlac : (jsToLower a).data = (jsToLower c).data :=
          (lexCmp_eq_zero _ _).mp (not_not.mp hac)
        rw [hlac, lexCmp_swap] at h1
        omega
    · have hlbc : (jsToLower b).data = (jsToLower c).data :=
        (lexCmp_eq_zero _ _).mp (not_not.mp hbc)
      have hac : lexCmp (jsToLower a).data (jsToLower c).data ≠ 0 := by
        rw [← hlbc]; exact hab
      rw [if_pos hac, ← hlbc]
      exact h1
  · have hlab : (jsToLower a).data = (jsToLower b).data :=
      (lexCmp_eq_zero _ _).mp (not_not.mp hab)
    rw [if_neg hab] at h1
    by_cases hbc : lexCmp (jsToLower b).data (jsToLower c).data ≠ 0
    · rw [if_pos hbc] at h2
      have hac : lexCmp (jsToLower a).data (jsToLower c).data ≠ 0 := by
        rw [hlab]; exact hbc
      rw [if_pos hac, hlab]
      exact h2
    · have hlbc : (jsToLower b).data = (jsToLower c).data :=
        (lexCmp_eq_zero _ _).mp (not_not.mp hbc)
      rw [if_neg hbc] at h2
      have hac : ¬lexCmp (jsToLower a).data (jsToLower c).data ≠ 0 := by
        rw [hlab, hlbc]
        simp [lexCmp_eq_zero]
      rw [if_neg hac]
      exact lexCmp_le_trans _ _ _ h1 h2

lemma devCompare_swap (a b : Device) : devCompare a b = -devCompare b a := by
  unfold devCompare
  cases hsa : a.sshEnabled <;> cases hsb : b.sshEnabled <;>
    cases hoa : a.online <;> cases hob : b.online <;>
    simp [hsa, hsb, hoa, hob, localeCmp_swap (nameKey a) (nameKey b)]

lemma devCompare_le_total (a b : Device) :
    devCompare a b ≤ 0 ∨ devCompare b a ≤ 0 := by
  rcases le_or_lt (devCompare a b) 0 with h | h
  · exact Or.inl h
  · right
    rw [devCompare_swap b a]
    omega

lemma devCompare_le_trans (a b c : Device) (h1 : devCompare a b ≤ 0)
    (h2 : devCompare b c ≤ 0) : devCompare a c ≤ 0 := by
  unfold devCompare at h1 h2 ⊢
  cases hsa : a.sshEnabled <;> cases hsb : b.sshEnabled <;> cases hsc : c.sshEnabled <;>
    simp only [hsa, hsb, hsc, ne_eq, not_true_eq_false, not_false_eq_true, if_true, if_false,
      reduceCtorEq, reduceIte] at h1 h2 ⊢ <;>
    try omega
  all_goals
    cases hoa : a.online <;> cases hob : b.online <;> cases hoc : c.online <;>
      simp only [hoa, hob, hoc, ne_eq, not_true_eq_false, not_false_eq_true, if_true, if_false,
        reduceCtorEq, reduceIte] at h1 h2 ⊢ <;>
      first
      | omega
      | exact localeCmp_le_trans _ _ _ h1 h2

/-- The spec's picker order, stated from the spec's own words: remote-shell
-enabled devices first, then online devices first, then case-insensitive
name ascending (compared on the lowercased name key). -/
def specSortLe (a b : Device) : Prop :=
  (a.sshEnabled = true ∧ b.sshEnabled = false) ∨
  (a.sshEnabled = b.sshEnabled ∧
    ((a.online = true ∧ b.online = false) ∨
     (a.online = b.online ∧
       lexCmp (jsToLower (nameKey a)).data (jsToLower (nameKey b)).data ≤ 0)))

lemma localeCmp_le_lower (a b : String) (h : localeCmp a b ≤ 0) :
    lexCmp (jsToLower a).data (jsToLower b).data ≤ 0 := by
  unfold localeCmp at h
  split_ifs at h with hp
  · exact h
  · simp only [not_not] at hp
    omega

lemma devCompare_imp_spec (a b : Device) (h : devCompare a b ≤ 0) : specSortLe a b := by
  unfold devCompare at h
  unfold specSortLe
  cases hsa : a.sshEnabled <;> cases hsb : b.sshEnabled <;>
    cases hoa : a.online <;> cases hob : b.online <;>
    simp only [hsa, hsb, hoa, hob, ne_eq, not_true_eq_false, not_false_eq_true, if_true,
      if_false, reduceCtorEq, reduceIte] at h ⊢ <;>
    first
    | (exfalso; omega)
    | exact Or.inl ⟨trivial, trivial⟩
    | exact Or.inr ⟨trivial, Or.inl ⟨trivial, trivial⟩⟩
    | exact Or.inr ⟨trivial, Or.inr ⟨trivial, localeCmp_le_lower _ _ h⟩⟩

lemma sortDevices_pairwise (l : List Device) : (sortDevices l).Pairwise specSortLe := by
  have hp : (sortDevices l).Pairwise
      (fun a b => (fun x y : Device => decide (devCompare x y ≤ 0)) a b = true) := by
    apply List.sorted_mergeSort
    · intro x y z hxy hyz
      simp only [decide_eq_true_eq] at hxy hyz ⊢
      exact devCompare_le_trans x y z hxy hyz
    · intro x y
      simp only [Bool.or_eq_true, decide_eq_true_eq]
      exact devCompare_le_total x y
  exact hp.imp (fun hab => devCompare_imp_spec _ _ (by simpa using hab))

unseal List.merge List.mergeSort

/-- Raw directory records for the C8 scenario, all seen at the handler's
current time (epoch 1000000 ms) so the named ones are online. -/
def rawA : RawDevice :=
  { id := "a", name := "a.ts.net", hostname := none, addresses := none,
    os := none, lastSeen := some 1000000, sshEnabled := some true }

def rawB : RawDevice :=
  { id := "b", name := "b.ts.net", hostname := none, addresses := none,
    os := none, lastSeen := some 1000000, sshEnabled := some false }

def rawU : RawDevice :=
  { id := "u", name := "", hostname := none, addresses := none,
    os := none, lastSeen := some 1000000, sshEnabled := some true }

/-- C8: for the three directory records a (ssh, online), b (no ssh, online)
and the unnamed one, the picker renders exactly two cards, a then b, with
the unnamed device excluded by the worker; in general the rendered list is
the sorted permutation of the trimmed devices, ordered remote-shell-enabled
first, then online first, then case-insensitive name ascending. -/
theorem claim_C8 :
    (pickerCards 1000000 [rawA, rawB, rawU]).map (fun d => d.name) =
      ["a.ts.net", "b.ts.net"] ∧
    (pickerCards 1000000 [rawA, rawB, rawU]).length = 2 ∧
    (∀ l : List Device, (sortDevices l).Pairwise specSortLe) ∧
    (∀ l : List Device, (sortDevices l).Perm l) :=
  ⟨by decide, by decide, sortDevices_pairwise, fun l => List.mergeSort_perm l _⟩

end TailSSH
